import Mathlib

/-!
Verification of the vmt-report repository (rastern/vmt-report) against its
natural-language specification.

This file shallowly embeds the relevant parts of `vmtreport/util.py` and
`vmtreport/common.py` in Lean 4 and proves (or refutes) the frozen claims
about them.

Conventions of the embedding:
* Python `Decimal` values are modelled as exact rationals (`ℚ`).  All inputs
  appearing in the theorems are small enough that Python's 28-significant-digit
  decimal context performs the same arithmetic exactly.
* Python exceptions are modelled with `Except`: each distinct exception class
  that the code can raise is one constructor of an error type.
* `list.index` (which raises `ValueError` when the element is absent) is
  modelled by `lidx`, returning `Option Nat`.
-/

/-- Exception classes that can escape the numeric conversion helpers of
`vmtreport/util.py`:
* `valueError` — `list.index(x)` with `x` absent from the list;
* `invalidOperation` — `decimal` signals `InvalidOperation` on `Decimal(0) ** 0`;
* `divisionByZero` — `decimal` signals `DivisionByZero` on `Decimal(1) / Decimal(0)`. -/
inductive PyNumErr where
  | valueError
  | invalidOperation
  | divisionByZero
deriving DecidableEq, Repr

deriving instance DecidableEq for Except

/-- Embedding of Python `list.index` for string lists: index of the first
occurrence, `none` when absent (Python raises `ValueError` there). -/
def lidx : List String → String → Option Nat
  | [], _ => none
  | y :: ys, x => if y = x then some 0 else (lidx ys x).map (· + 1)

/-- Embedding of Python `str.upper` (ASCII letters, which is all the unit
labels contain). -/
def pyUpper (s : String) : String := String.mk (s.data.map Char.toUpper)

/-- Round a rational to the nearest integer, ties to even — the rounding used
by `round` on a Python `Decimal` (context default `ROUND_HALF_EVEN`). -/
def rhalfEvenZ (q : ℚ) : ℤ :=
  let f := Int.floor q
  let r := q - (f : ℚ)
  if r < 1/2 then f
  else if 1/2 < r then f + 1
  else if f % 2 = 0 then f else f + 1

/-- Embedding of Python `round(res, p)` on a `Decimal`: round half-even to `p`
fractional digits (negative `p` rounds to tens, hundreds, ...). -/
def roundDec (q : ℚ) (p : ℤ) : ℚ := (rhalfEvenZ (q * (10 : ℚ) ^ p) : ℚ) / (10 : ℚ) ^ p

/-- Embedding of the final line of `unit_cast`:
`return round(res, precision) if precision else res`.
`precision` is `False` (modelled `none`) or an integer; Python's truthiness
makes both `False` and `0` take the unrounded branch. -/
def applyPrec (res : ℚ) (precision : Option ℤ) : ℚ :=
  match precision with
  | none => res
  | some p => if p = 0 then res else roundDec res p

/-- Embedding of `vmtreport.util.unit_cast(value, ufrom, uto, factor, unit_list,
precision)`:

```
factor = Decimal(factor)
value = Decimal(value)
offset = unit_list.index(uto) - unit_list.index(ufrom)
chg = Decimal(pow(factor, abs(offset)))
res = value * chg if offset <= 0 else value * (Decimal(1)/chg)
return round(res, precision) if precision else res
```

A missing unit label makes `list.index` raise `ValueError`; `Decimal(0) ** 0`
raises `InvalidOperation`; `Decimal(1) / Decimal(0)` raises `DivisionByZero`. -/
def unit_cast (value : ℚ) (ufrom uto : String) (factor : ℚ)
    (unit_list : List String) (precision : Option ℤ) : Except PyNumErr ℚ :=
  match lidx unit_list uto, lidx unit_list ufrom with
  | some ito, some ifr =>
    let offset : ℤ := (ito : ℤ) - (ifr : ℤ)
    if factor = 0 ∧ offset.natAbs = 0 then .error .invalidOperation
    else
      let chg : ℚ := factor ^ offset.natAbs
      if offset ≤ 0 then .ok (applyPrec (value * chg) precision)
      else if chg = 0 then .error .divisionByZero
      else .ok (applyPrec (value * (1 / chg)) precision)
  | _, _ => .error .valueError

/-- The binary byte scale hard-coded in `mem_cast`. -/
def memUnits : List String := ["B", "KB", "MB", "GB", "TB", "PB", "EB", "ZB", "YB"]

/-- The SI frequency scale hard-coded in `cpu_cast`.  Note the source lists
`['HZ', 'MHZ', 'GHZ', 'THZ', 'PHZ']` — there is no `KHZ` entry. -/
def cpuUnits : List String := ["HZ", "MHZ", "GHZ", "THZ", "PHZ"]

/-- Embedding of `vmtreport.util.mem_cast(value, unit, factor, src_unit,
precision)`.  The Python defaults are `unit='GB'`, `factor=1024`,
`src_unit='KB'`, `precision=False`; the body is
`unit_cast(value, src_unit.upper(), unit.upper(), factor, units, precision)`. -/
def mem_cast (value : ℚ) (unit : String) (factor : ℚ) (src_unit : String)
    (precision : Option ℤ) : Except PyNumErr ℚ :=
  unit_cast value (pyUpper src_unit) (pyUpper unit) factor memUnits precision

/-- Embedding of `vmtreport.util.cpu_cast(value, unit, factor, src_unit,
precision)`.  The Python defaults are `unit='GHZ'`, `factor=1000`,
`src_unit='MZH'` (sic — the source signature contains this typo, while its own
docstring says the default is `MHZ`), `precision=False`. -/
def cpu_cast (value : ℚ) (unit : String) (factor : ℚ) (src_unit : String)
    (precision : Option ℤ) : Except PyNumErr ℚ :=
  unit_cast value (pyUpper src_unit) (pyUpper unit) factor cpuUnits precision

/-- A call of `cpu_cast(value)` with every optional argument left at its
Python default (`unit='GHZ'`, `factor=1000`, `src_unit='MZH'`,
`precision=False`). -/
def cpu_cast_defaulted (value : ℚ) : Except PyNumErr ℚ :=
  cpu_cast value "GHZ" 1000 "MZH" none

/-- A call of `mem_cast(value)` with every optional argument left at its
Python default (`unit='GB'`, `factor=1024`, `src_unit='KB'`,
`precision=False`). -/
def mem_cast_defaulted (value : ℚ) : Except PyNumErr ℚ :=
  mem_cast value "GB" 1024 "KB" none

/-- If a string is a member of a list, `lidx` finds an index for it. -/
theorem lidx_isSome_of_mem {u : String} {ul : List String} (h : u ∈ ul) :
    (lidx ul u).isSome := by
  induction ul with
  | nil => cases h
  | cons y ys ih =>
    by_cases hy : y = u
    · simp [lidx, hy]
    · rcases List.mem_cons.mp h with h | h
      · exact absurd h.symm hy
      · have h3 := ih h
        cases hl : lidx ys u with
        | none => rw [hl] at h3; cases h3
        | some i => simp [lidx, if_neg hy, hl]

-- ### C6

/-- C6 counterexample: the spec claims `cpuCast(2,'HZ',srcUnit='MHZ') ==
2000000`, but the code returns `2000`: the hard-coded SI scale omits `KHZ`,
so `HZ` and `MHZ` are adjacent and a single factor of 1000 apart. -/
theorem C6_counterexample :
    cpu_cast 2 "HZ" 1000 "MHZ" none ≠ Except.ok (2000000 : ℚ) := by
  have h1 : pyUpper ("MHZ") = "MHZ" := by decide
  have h2 : pyUpper ("HZ") = "HZ" := by decide
  simp [cpu_cast, h1, h2, unit_cast, lidx, cpuUnits, applyPrec]
  norm_num

/-- C6 (amended): `cpu_cast` applied to value 2 with destination unit `'HZ'`
and source unit `'MHZ'` returns 2000, because the scale list
`['HZ','MHZ','GHZ','THZ','PHZ']` has no `KHZ` entry, making `MHZ` one step
(one factor of 1000) above `HZ`. -/
theorem C6_mhz_to_hz :
    cpu_cast 2 "HZ" 1000 "MHZ" none = Except.ok (2000 : ℚ) := by
  have h1 : pyUpper ("MHZ") = "MHZ" := by decide
  have h2 : pyUpper ("HZ") = "HZ" := by decide
  simp [cpu_cast, h1, h2, unit_cast, lidx, cpuUnits, applyPrec]
  norm_num

-- ### C7

/-- C7 (code bug): `mem_cast` without `src_unit` does convert from `'KB'`
(its default), but `cpu_cast`'s default source unit is the typo `'MZH'`,
which is absent from the scale, so every defaulted call raises `ValueError`
instead of converting from `'MHZ'` as the code's own docstring promises:
* a fully defaulted `cpu_cast(2)` fails with `ValueError`;
* the same call with the documented default `'MHZ'` would return 1/500 GHz;
* a fully defaulted `mem_cast(2)` succeeds, returning 2 KB in GB. -/
theorem C7_cpu_default_src_unit_broken :
    cpu_cast_defaulted 2 = Except.error PyNumErr.valueError ∧
    cpu_cast 2 "GHZ" 1000 "MHZ" none = Except.ok ((1 : ℚ) / 500) ∧
    mem_cast_defaulted 2 = Except.ok ((2 : ℚ) / 1048576) := by
  have h1 : pyUpper ("MZH") = "MZH" := by decide
  have h2 : pyUpper ("GHZ") = "GHZ" := by decide
  have h3 : pyUpper ("MHZ") = "MHZ" := by decide
  have h4 : pyUpper ("KB") = "KB" := by decide
  have h5 : pyUpper ("GB") = "GB" := by decide
  refine ⟨?_, ?_, ?_⟩
  · simp [cpu_cast_defaulted, cpu_cast, h1, h2, unit_cast, lidx, cpuUnits]
  · simp [cpu_cast, h3, h2, unit_cast, lidx, cpuUnits, applyPrec]
    norm_num
  · simp [mem_cast_defaulted, mem_cast, h4, h5, unit_cast, lidx, memUnits, applyPrec]
    norm_num

-- ### C8

/-- C8 counterexample: the claim says precision `p = 0` rounds to zero
fractional digits, but `round(res, precision) if precision else res` treats
`0` as falsy and skips rounding: converting 3 `B` to `KB` with factor 2 and
precision 0 returns the unrounded 3/2, not `round(3/2, 0) = 2`. -/
theorem C8_counterexample :
    unit_cast 3 "B" "KB" 2 ["B", "KB"] (some 0) = Except.ok ((3 : ℚ) / 2) ∧
    roundDec ((3 : ℚ) / 2) 0 = 2 ∧ ((3 : ℚ) / 2) ≠ 2 := by
  have h1 : Int.floor ((3 : ℚ) / 2) = 1 := by
    rw [Int.floor_eq_iff]
    norm_num
  refine ⟨?_, ?_, by norm_num⟩
  · simp [unit_cast, lidx, applyPrec]
    norm_num
  · simp [roundDec, rhalfEvenZ, h1]
    norm_num [Int.fract, h1]

/-- C8 (amended): for every nonzero integer precision `p`, `unit_cast` rounds
the exact decimal result half-even to `p` fractional digits; when precision
is `0` or `False`, it returns the unrounded exact decimal result (Python's
`if precision` treats both `False` and `0` as falsy). -/
theorem C8_precision_rounding (value : ℚ) (ufrom uto : String) (factor : ℚ)
    (ul : List String) (p : ℤ) (hp : p ≠ 0) :
    unit_cast value ufrom uto factor ul (some p) =
      (unit_cast value ufrom uto factor ul none).map (fun r => roundDec r p) ∧
    unit_cast value ufrom uto factor ul (some 0) =
      unit_cast value ufrom uto factor ul none := by
  constructor <;>
  · cases h1 : lidx ul uto <;> cases h2 : lidx ul ufrom <;>
      simp only [unit_cast, h1, h2, Except.map] <;>
      (split_ifs <;> simp [applyPrec, hp])

/-- C8 witness: the rounding theorem applied at a concrete input with
precision 1 (256 `B` to `KB` rounds 1/4 to 0.2, one of the repository's own
test vectors). -/
theorem C8_precision_rounding_witness :
    unit_cast 256 "B" "KB" 1024 ["B", "KB"] (some 1) =
      (unit_cast 256 "B" "KB" 1024 ["B", "KB"] none).map (fun r => roundDec r 1) :=
  (C8_precision_rounding 256 "B" "KB" 1024 ["B", "KB"] 1 (by decide)).1

-- ### C10

/-- C10 counterexample: with `factor = 0` and equal source and destination
units the offset is 0, so the code computes `Decimal(0) ** 0`, which signals
`InvalidOperation` — the call raises instead of returning the value. -/
theorem C10_counterexample :
    unit_cast 5 "A" "A" 0 ["A"] none = Except.error PyNumErr.invalidOperation ∧
    unit_cast 5 "A" "A" 0 ["A"] none ≠ Except.ok (5 : ℚ) := by
  constructor
  · simp [unit_cast, lidx]
  · simp [unit_cast, lidx]

/-- C10 (amended): unit conversion to the same unit is the identity for every
nonzero factor: for every value, every unit `u` present in `unit_list`, and
precision `False`, `unit_cast(value, u, u, factor, unit_list)` returns the
value unchanged. -/
theorem C10_same_unit_identity (value factor : ℚ) (u : String)
    (ul : List String) (hf : factor ≠ 0) (hu : u ∈ ul) :
    unit_cast value u u factor ul none = Except.ok value := by
  obtain ⟨i, hi⟩ := Option.isSome_iff_exists.mp (lidx_isSome_of_mem hu)
  simp [unit_cast, hi, applyPrec, hf]

/-- C10 witness: converting 7 from unit `"A"` to unit `"A"` over the scale
`["A", "B"]` with factor 10 returns 7. -/
theorem C10_same_unit_identity_witness :
    unit_cast 7 "A" "A" 10 ["A", "B"] none = Except.ok (7 : ℚ) :=
  C10_same_unit_identity 7 10 "A" ["A", "B"] (by norm_num) (by simp)

/-!
## The sandboxed expression evaluator (`vmtreport/util.py`: `INVALID_NAMES`,
`INVALID_EXPR`, `SafeNodeCheck`, `evaluate`) and the computed-field resolver
(`vmtreport/common.py`: `DataField.compute`).

The Python code parses an expression string with `ast.parse(exp, mode='eval')`,
walks the tree with an `ast.NodeVisitor` subclass, and finally evaluates the
compiled tree with `eval(cobj, {'math': math}, None)`.  We embed the fragment
of Python's expression AST that the claims exercise as a mutual inductive
`Expr`/`ExprList`, treat the external parser as an oracle argument
`parse : String → Except PyErr Expr` (its result on each concrete input string
used in a theorem is spelled out from `ast.parse`'s documented output), and
embed the checker and the evaluation semantics directly.
-/

/-- Exception classes relevant to `evaluate` and `DataField.compute`:
* `syntaxError` — `SyntaxError`, raised by the dunder pre-check, by
  `ast.parse` on non-expression input, and by `SafeNodeCheck.Invalid`;
* `nameError` — `NameError`, raised when a name fails to resolve at
  evaluation time;
* `typeError` — `TypeError` from an operation on unsuitable operands;
* `zeroDivision` — `ZeroDivisionError`;
* `keyError` — `KeyError` from `data[token[1:]]` in `DataField.compute`;
* `valueErrorE` — `ValueError` (e.g. `chr` out of range);
* `unmodeled` — the evaluation reached a construct outside the modelled
  fragment (no theorem in this file depends on this constructor). -/
inductive PyErr where
  | syntaxError
  | nameError
  | typeError
  | zeroDivision
  | keyError
  | valueErrorE
  | unmodeled
deriving DecidableEq, Repr

/-- The builtin function objects our evaluation fragment gives semantics to.
They exist because `eval(cobj, {'math': math}, None)` passes a globals dict
without a `'__builtins__'` key, and CPython then inserts the full builtins
module into the globals before evaluating — so *every* builtin name resolves
inside the sandbox.  We model the fragment of that namespace that the claims
and the repository's own tests exercise. -/
inductive PyFunc where
  | abs
  | len
  | chr
  | vars
deriving DecidableEq, Repr

mutual
/-- A Python runtime value (the fragment our evaluation semantics covers). -/
inductive PyVal where
  | int (n : ℤ)
  | float (q : ℚ)
  | bool (b : Bool)
  | str (s : String)
  | pyNone
  | tuple (xs : PyValList)
  | list (xs : PyValList)
  | func (f : PyFunc)
  | mathModule
/-- A list of Python values (spelled as a mutual inductive so that structural
recursion over nested values stays simple). -/
inductive PyValList where
  | nil
  | cons (head : PyVal) (tail : PyValList)
end

deriving instance DecidableEq for PyVal, PyValList

/-- Unary operator AST nodes we model (`ast.USub`, `ast.UAdd`). -/
inductive UnaryOpKind where
  | usub
  | uadd
deriving DecidableEq, Repr

/-- Binary operator AST nodes we model (`ast.Add`, `ast.Sub`, `ast.Mult`,
`ast.Div`). -/
inductive BinOpKind where
  | add
  | sub
  | mult
  | div
deriving DecidableEq, Repr

mutual
/-- The fragment of Python's expression AST (`ast` module, `mode='eval'`)
appearing in the claims.  Constructors mirror the `ast` node classes:
`Constant`, `Name`, `UnaryOp`, `BinOp`, `Call`, `Tuple`, `List`, `Attribute`,
`Lambda`, `GeneratorExp`, `ListComp`, `SetComp`, `DictComp`, `Await`,
`Yield`, `YieldFrom`, `NamedExpr`.  Comprehensions are modelled with a single
generator whose target is one plain name and no `if` filters (the shape used
in the theorems); the target is a `Name` node in the Python AST and is
therefore also subject to `visit_Name`.  `Lambda` parameters and constant
kinds beyond scalars are irrelevant to every claim and elided. -/
inductive Expr where
  | constant (v : PyVal)
  | name (id : String)
  | unaryOp (op : UnaryOpKind) (operand : Expr)
  | binOp (left : Expr) (op : BinOpKind) (right : Expr)
  | call (func : Expr) (args : ExprList)
  | tuple (elts : ExprList)
  | list (elts : ExprList)
  | attributeE (value : Expr) (attrName : String)
  | lambda (body : Expr)
  | generatorExp (elt : Expr) (target : String) (iter : Expr)
  | listComp (elt : Expr) (target : String) (iter : Expr)
  | setComp (elt : Expr) (target : String) (iter : Expr)
  | dictComp (key : Expr) (value : Expr) (target : String) (iter : Expr)
  | await (value : Expr)
  | yield (value : Expr)
  | yieldFrom (value : Expr)
  | namedExpr (target : String) (value : Expr)
/-- A list of expressions (call arguments, tuple/list elements). -/
inductive ExprList where
  | nil
  | cons (head : Expr) (tail : ExprList)
end

deriving instance DecidableEq for Expr, ExprList

/-- `INVALID_NAMES` from `vmtreport/util.py`, verbatim. -/
def INVALID_NAMES : List String :=
  ["callable", "class", "classmethod", "compile", "def", "del", "delattr",
   "dir", "eval", "exec", "execfile", "file", "filter", "getattr", "globals",
   "hasattr", "help", "id", "import", "input", "isinstance", "issubclass",
   "lambda", "locals", "object", "open", "print", "raw_input", "reload",
   "repr", "setattr", "type"]

/-- Embedding of Python `str.lower` (ASCII, which covers all identifiers the
checker compares). -/
def pyLower (s : String) : String := String.mk (s.data.map Char.toLower)

/-- The test `node.id.lower() in INVALID_NAMES` from
`SafeNodeCheck.visit_Name`. -/
def deniedName (id : String) : Bool := INVALID_NAMES.contains (pyLower id)

mutual
/-- Does the tree contain any node that makes `SafeNodeCheck` raise?  The
Python visitor raises the one `SyntaxError('Invalid expression', ...)` at the
first offending node: for node classes in `INVALID_EXPR`
(`Await`, `GeneratorExp`, `Lambda`, `NamedExpr`, `Yield`, `YieldFrom`),
`visit_<class>` is bound to `Invalid` in `__init__` and fires without
descending; `visit_Name` fires when the lowercased id is in `INVALID_NAMES`;
every other node class is traversed by `generic_visit`.  Since every raise
site raises the identical exception, the visitor's outcome is exactly
"error iff such a node occurs", which is what this function decides.
A comprehension's target is a `Name` node in the Python AST, so it too goes
through `visit_Name` — hence the `deniedName target` disjuncts. -/
def anyBadExpr : Expr → Bool
  | .constant _ => false
  | .name id => deniedName id
  | .unaryOp _ e => anyBadExpr e
  | .binOp l _ r => anyBadExpr l || anyBadExpr r
  | .call f args => anyBadExpr f || anyBadList args
  | .tuple xs => anyBadList xs
  | .list xs => anyBadList xs
  | .attributeE v _ => anyBadExpr v
  | .lambda _ => true
  | .generatorExp _ _ _ => true
  | .listComp elt target iter =>
      deniedName target || anyBadExpr elt || anyBadExpr iter
  | .setComp elt target iter =>
      deniedName target || anyBadExpr elt || anyBadExpr iter
  | .dictComp k v target iter =>
      deniedName target || anyBadExpr k || anyBadExpr v || anyBadExpr iter
  | .await _ => true
  | .yield _ => true
  | .yieldFrom _ => true
  | .namedExpr _ _ => true
/-- `anyBadExpr` over a node list. -/
def anyBadList : ExprList → Bool
  | .nil => false
  | .cons h t => anyBadExpr h || anyBadList t
end

/-- Embedding of `SafeNodeCheck().visit(tree)`: raises `SyntaxError` iff the
tree contains a node blocked by `INVALID_EXPR` or a name blocked by
`INVALID_NAMES` (see `anyBadExpr`). -/
def SafeNodeCheck (tree : Expr) : Except PyErr Unit :=
  if anyBadExpr tree then .error .syntaxError else .ok ()

/-- The builtins namespace fragment used by the semantics (see `PyFunc`). -/
def builtinsNS : List (String × PyFunc) :=
  [("abs", .abs), ("len", .len), ("chr", .chr), ("vars", .vars)]

/-- Name resolution inside `eval(cobj, {'math': math}, None)`: comprehension
scopes first (the only local scopes our fragment creates), then the globals
dict entry `'math'`, then the builtins module that CPython injected because
the globals dict has no `'__builtins__'` key.  Anything else is unresolved
and raises `NameError`. -/
def resolveName (env : List (String × PyVal)) (id : String) : Option PyVal :=
  match List.lookup id env with
  | some v => some v
  | none =>
    if id = "math" then some .mathModule
    else (List.lookup id builtinsNS).map PyVal.func

/-- Numeric view of a value: `some (isFloat, q)` for Python numbers, with
`bool` counting as an int as in Python. -/
def asNum : PyVal → Option (Bool × ℚ)
  | .int n => some (false, (n : ℚ))
  | .bool b => some (false, if b then 1 else 0)
  | .float q => some (true, q)
  | _ => none

/-- Integer view of a value (`int` or `bool`). -/
def asInt : PyVal → Option ℤ
  | .int n => some n
  | .bool b => some (if b then 1 else 0)
  | _ => none

/-- Integer result of `+`, `-`, `*` (the `div` case is unreachable: true
division is handled before `intOp` and never produces an int). -/
def intOp : BinOpKind → ℤ → ℤ → ℤ
  | .add, x, y => x + y
  | .sub, x, y => x - y
  | .mult, x, y => x * y
  | .div, x, _ => x

/-- Rational result of `+`, `-`, `*` on floats (again `div` is handled
separately). -/
def ratOp : BinOpKind → ℚ → ℚ → ℚ
  | .add, x, y => x + y
  | .sub, x, y => x - y
  | .mult, x, y => x * y
  | .div, x, _ => x

/-- Python binary-operator semantics on our value fragment: string
concatenation for `+`; true division returns a float and raises
`ZeroDivisionError` on a zero divisor; `+`, `-`, `*` return an int when both
operands are int-like, otherwise a float.  Other combinations raise
`TypeError`. -/
def applyBinOp : BinOpKind → PyVal → PyVal → Except PyErr PyVal
  | .add, .str a, .str b => .ok (.str (a ++ b))
  | .div, a, b =>
    match asNum a, asNum b with
    | some (_, x), some (_, y) =>
      if y = 0 then .error .zeroDivision else .ok (.float (x / y))
    | _, _ => .error .typeError
  | op, a, b =>
    match asInt a, asInt b with
    | some x, some y => .ok (.int (intOp op x y))
    | _, _ =>
      match asNum a, asNum b with
      | some (_, x), some (_, y) => .ok (.float (ratOp op x y))
      | _, _ => .error .typeError

/-- Python unary-operator semantics: negation keeps ints int and floats
float; unary plus likewise. -/
def applyUnaryOp : UnaryOpKind → PyVal → Except PyErr PyVal
  | .usub, .int n => .ok (.int (-n))
  | .usub, .bool b => .ok (.int (-(if b then 1 else 0)))
  | .usub, .float q => .ok (.float (-q))
  | .usub, _ => .error .typeError
  | .uadd, .int n => .ok (.int n)
  | .uadd, .bool b => .ok (.int (if b then 1 else 0))
  | .uadd, .float q => .ok (.float q)
  | .uadd, _ => .error .typeError

/-- Length of a value list. -/
def pyValListLength : PyValList → ℤ
  | .nil => 0
  | .cons _ t => pyValListLength t + 1

/-- Calling a value: semantics of the modelled builtins.  `vars` is resolvable
(that is the point of claim C4) but calling it is outside the modelled
fragment. -/
def applyCall : PyVal → PyValList → Except PyErr PyVal
  | .func .abs, .cons (.int n) .nil => .ok (.int |n|)
  | .func .abs, .cons (.bool b) .nil => .ok (.int (if b then 1 else 0))
  | .func .abs, .cons (.float q) .nil => .ok (.float |q|)
  | .func .len, .cons (.str s) .nil => .ok (.int (s.length : ℤ))
  | .func .len, .cons (.tuple xs) .nil => .ok (.int (pyValListLength xs))
  | .func .len, .cons (.list xs) .nil => .ok (.int (pyValListLength xs))
  | .func .chr, .cons (.int n) .nil =>
    if 0 ≤ n ∧ n < 1114112 then
      .ok (.str (String.mk [Char.ofNat n.toNat]))
    else .error .valueErrorE
  | .func .vars, _ => .error .unmodeled
  | _, _ => .error .typeError

/-- Elements of an iterable value (tuples and lists, the shapes the theorems
iterate over). -/
def toElems : PyVal → Option PyValList
  | .tuple xs => some xs
  | .list xs => some xs
  | _ => none

mutual
/-- Evaluation semantics of the checked tree under
`eval(cobj, {'math': math}, None)`.  `env` carries comprehension-local
bindings (empty at top level).  Exception propagation is spelled out with
explicit matches.  Constructs that can only be reached after `SafeNodeCheck`
has already raised (`lambda`, `generatorExp`, ...) and constructs we give no
semantics to (`attributeE`, `setComp`, `dictComp`) return `unmodeled`; no
theorem depends on those branches. -/
def evalExpr (env : List (String × PyVal)) : Expr → Except PyErr PyVal
  | .constant v => .ok v
  | .name id =>
    match resolveName env id with
    | some v => .ok v
    | none => .error .nameError
  | .unaryOp op e =>
    match evalExpr env e with
    | .error er => .error er
    | .ok v => applyUnaryOp op v
  | .binOp l op r =>
    match evalExpr env l with
    | .error er => .error er
    | .ok lv =>
      match evalExpr env r with
      | .error er => .error er
      | .ok rv => applyBinOp op lv rv
  | .call f args =>
    match evalExpr env f with
    | .error er => .error er
    | .ok fv =>
      match evalExprList env args with
      | .error er => .error er
      | .ok av => applyCall fv av
  | .tuple xs =>
    match evalExprList env xs with
    | .error er => .error er
    | .ok vs => .ok (.tuple vs)
  | .list xs =>
    match evalExprList env xs with
    | .error er => .error er
    | .ok vs => .ok (.list vs)
  | .listComp elt target iter =>
    match evalExpr env iter with
    | .error er => .error er
    | .ok iv =>
      match toElems iv with
      | none => .error .typeError
      | some elems =>
        match evalCompElems env elt target elems with
        | .error er => .error er
        | .ok vs => .ok (.list vs)
  | .attributeE _ _ => .error .unmodeled
  | .lambda _ => .error .unmodeled
  | .generatorExp _ _ _ => .error .unmodeled
  | .setComp _ _ _ => .error .unmodeled
  | .dictComp _ _ _ _ => .error .unmodeled
  | .await _ => .error .unmodeled
  | .yield _ => .error .unmodeled
  | .yieldFrom _ => .error .unmodeled
  | .namedExpr _ _ => .error .unmodeled
termination_by e => (sizeOf e, 0)
decreasing_by all_goals (simp_wf; omega)
/-- Evaluate each expression of a list left to right, propagating the first
exception. -/
def evalExprList (env : List (String × PyVal)) : ExprList → Except PyErr PyValList
  | .nil => .ok .nil
  | .cons h t =>
    match evalExpr env h with
    | .error er => .error er
    | .ok v =>
      match evalExprList env t with
      | .error er => .error er
      | .ok vs => .ok (.cons v vs)
termination_by l => (sizeOf l, 0)
decreasing_by all_goals (simp_wf; omega)
/-- Evaluate a single-generator comprehension body once per element, binding
the target name. -/
def evalCompElems (env : List (String × PyVal)) (elt : Expr) (target : String) :
    PyValList → Except PyErr PyValList
  | .nil => .ok .nil
  | .cons v vs =>
    match evalExpr ((target, v) :: env) elt with
    | .error er => .error er
    | .ok w =>
      match evalCompElems env elt target vs with
      | .error er => .error er
      | .ok ws => .ok (.cons w ws)
termination_by elems => (sizeOf elt, sizeOf elems)
decreasing_by all_goals (simp_wf; omega)
end

/-- The substring test `'__' in exp` from `evaluate`. -/
def hasDunder : List Char → Bool
  | [] => false
  | c :: rest =>
    match c, rest with
    | '_', '_' :: _ => true
    | _, _ => hasDunder rest

/-- String-level wrapper for `hasDunder`. -/
def containsDunder (s : String) : Bool := hasDunder s.data

/-- Embedding of `vmtreport.util.evaluate(exp)`:

```
if '__' in exp:
    raise SyntaxError('Invalid expression', ('', 1, 0, ''))
tree = ast.parse(exp, mode='eval')
SafeNodeCheck().visit(tree)
ast.fix_missing_locations(tree)
cobj = compile(tree, '<ast>', 'eval')
return eval(cobj, {'math': math}, None)
```

The external parser `ast.parse` is an oracle argument; `fix_missing_locations`
and `compile` do not affect the value semantics. -/
def evaluate (parse : String → Except PyErr Expr) (exp : String) :
    Except PyErr PyVal :=
  if containsDunder exp then .error .syntaxError
  else
    match parse exp with
    | .error er => .error er
    | .ok tree =>
      match SafeNodeCheck tree with
      | .error er => .error er
      | .ok _ => evalExpr [] tree

/-!
## `DataField.compute` from `vmtreport/common.py`

```
def compute(self, data):
    r_var = r'([\$\w]+)'
    _str = self.value
    try:
        for token in [i for i in re.split(r_var, self.value) if i]:
            if token[0] == '$':
                _str = _str.replace(token, str(data[token[1:]]))
        return vu.evaluate(_str)
    except ZeroDivisionError:
        return 0
    except KeyError:
        return None
```
-/

/-- A character of the regex class `[\$\w]` used by `DataField.compute`
(`\w` restricted to ASCII, which covers every field id the format allows). -/
def isVarChar (c : Char) : Bool := c = '$' || c.isAlphanum || c = '_'

/-- Split a character list into maximal runs of characters that agree on
`isVarChar`.  `cur` is the current run, reversed.  This reproduces
`[i for i in re.split(r'([\$\w]+)', s) if i]`: with a capturing group,
`re.split` returns the matched runs interleaved with the (possibly empty)
gaps between them, and filtering the empties leaves exactly the maximal
runs of both character classes in order. -/
def tokenizeVar : List Char → List Char → List String
  | cur, [] => if cur.isEmpty then [] else [String.mk cur.reverse]
  | cur, c :: cs =>
    match cur with
    | [] => tokenizeVar [c] cs
    | p :: _ =>
      if isVarChar c == isVarChar p then tokenizeVar (c :: cur) cs
      else String.mk cur.reverse :: tokenizeVar [c] cs

/-- The token list of `re.split(r'([\$\w]+)', s)` with empties removed. -/
def reSplitTokens (s : String) : List String := tokenizeVar [] s.data

/-- Does the second list start with the first? -/
def startsList : List Char → List Char → Bool
  | [], _ => true
  | _ :: _, [] => false
  | p :: ps, c :: cs => p == c && startsList ps cs

/-- Embedding of Python `str.replace(pat, rep)`: replace all non-overlapping
occurrences left to right.  `fuel` is a structural-termination device, always
called with the length of the scanned list so the `0` case only ever sees an
empty list.  Patterns here are always nonempty (`$`-tokens), which the
`!pat.isEmpty` guard records. -/
def replaceFuel (pat rep : List Char) : Nat → List Char → List Char
  | _, [] => []
  | 0, rest => rest
  | fuel + 1, c :: cs =>
    if !pat.isEmpty && startsList pat (c :: cs) then
      rep ++ replaceFuel pat rep fuel (List.drop (pat.length - 1) cs)
    else c :: replaceFuel pat rep fuel cs

/-- String-level wrapper for `replaceFuel`. -/
def pyReplace (s pat rep : String) : String :=
  String.mk (replaceFuel pat.data rep.data s.data.length s.data)

/-- Python `str()` of the row values that can be substituted into a template.
Exact for ints, bools, strings and `None`; `none` for values (floats,
containers, functions) whose textual form the model does not commit to — no
theorem in this file substitutes such a value. -/
def pyStrOpt : PyVal → Option String
  | .int n => some (toString n)
  | .bool b => some (if b then "True" else "False")
  | .str s => some s
  | .pyNone => some ("None")
  | _ => none

/-- Does a token start with the dollar sign (`token[0] == '$'`)? -/
def headIsDollar (t : String) : Bool :=
  match t.data with
  | '$' :: _ => true
  | _ => false

/-- The substitution loop of `DataField.compute`: for each token starting
with `$`, replace every occurrence of the token in the accumulated string by
`str(data[token[1:]])`; a missing key raises `KeyError`. -/
def substituteTokens (data : List (String × PyVal)) :
    List String → String → Except PyErr String
  | [], acc => .ok acc
  | t :: ts, acc =>
    if headIsDollar t then
      match List.lookup (String.mk (t.data.drop 1)) data with
      | none => .error .keyError
      | some v =>
        match pyStrOpt v with
        | none => .error .unmodeled
        | some s => substituteTokens data ts (pyReplace acc t s)
    else substituteTokens data ts acc

/-- The `except` clauses of `DataField.compute`: `ZeroDivisionError` maps to
`0`, `KeyError` maps to `None`, every other exception propagates. -/
def computeHandle : Except PyErr PyVal → Except PyErr (Option PyVal)
  | .error .zeroDivision => .ok (some (.int 0))
  | .error .keyError => .ok none
  | .error er => .error er
  | .ok v => .ok (some v)

/-- Embedding of `DataField.compute(data)` for a computed field whose
expression template is `value`: substitute the `$`-tokens, evaluate the
resulting string, and apply the two `except` clauses. -/
def compute (parse : String → Except PyErr Expr)
    (data : List (String × PyVal)) (value : String) :
    Except PyErr (Option PyVal) :=
  computeHandle
    (match substituteTokens data (reSplitTokens value) value with
     | .error er => .error er
     | .ok s => evaluate parse s)

/-!
## Claim-side traversal predicates

`hasBlockedNode` — an occurrence, anywhere in the tree, of one of the node
kinds named by `INVALID_EXPR` (the grammar-level denials of the spec);
`hasDeniedName` — an occurrence, anywhere, of a `Name` whose lowercased id is
in `INVALID_NAMES`.  These express the claims; the lemmas below connect them
to the checker `anyBadExpr`.
-/

/-- Is the root node one of the `INVALID_EXPR` kinds (`Await`, `GeneratorExp`,
`Lambda`, `NamedExpr`, `Yield`, `YieldFrom`)? -/
def blockedKind : Expr → Bool
  | .lambda _ => true
  | .generatorExp _ _ _ => true
  | .await _ => true
  | .yield _ => true
  | .yieldFrom _ => true
  | .namedExpr _ _ => true
  | _ => false

mutual
/-- Does the tree contain (at any depth) a node of an `INVALID_EXPR` kind? -/
def hasBlockedNode : Expr → Bool
  | .constant _ => false
  | .name _ => false
  | .unaryOp _ e => hasBlockedNode e
  | .binOp l _ r => hasBlockedNode l || hasBlockedNode r
  | .call f args => hasBlockedNode f || hasBlockedNodeList args
  | .tuple xs => hasBlockedNodeList xs
  | .list xs => hasBlockedNodeList xs
  | .attributeE v _ => hasBlockedNode v
  | .lambda _ => true
  | .generatorExp _ _ _ => true
  | .listComp elt _ iter => hasBlockedNode elt || hasBlockedNode iter
  | .setComp elt _ iter => hasBlockedNode elt || hasBlockedNode iter
  | .dictComp k v _ iter => hasBlockedNode k || hasBlockedNode v || hasBlockedNode iter
  | .await _ => true
  | .yield _ => true
  | .yieldFrom _ => true
  | .namedExpr _ _ => true
/-- `hasBlockedNode` over a node list. -/
def hasBlockedNodeList : ExprList → Bool
  | .nil => false
  | .cons h t => hasBlockedNode h || hasBlockedNodeList t
end

mutual
/-- Does the tree contain (at any depth, comprehension targets included) a
name whose lowercased text is in `INVALID_NAMES`? -/
def hasDeniedName : Expr → Bool
  | .constant _ => false
  | .name id => deniedName id
  | .unaryOp _ e => hasDeniedName e
  | .binOp l _ r => hasDeniedName l || hasDeniedName r
  | .call f args => hasDeniedName f || hasDeniedNameList args
  | .tuple xs => hasDeniedNameList xs
  | .list xs => hasDeniedNameList xs
  | .attributeE v _ => hasDeniedName v
  | .lambda body => hasDeniedName body
  | .generatorExp elt target iter =>
      deniedName target || hasDeniedName elt || hasDeniedName iter
  | .listComp elt target iter =>
      deniedName target || hasDeniedName elt || hasDeniedName iter
  | .setComp elt target iter =>
      deniedName target || hasDeniedName elt || hasDeniedName iter
  | .dictComp k v target iter =>
      deniedName target || hasDeniedName k || hasDeniedName v || hasDeniedName iter
  | .await v => hasDeniedName v
  | .yield v => hasDeniedName v
  | .yieldFrom v => hasDeniedName v
  | .namedExpr target v => deniedName target || hasDeniedName v
/-- `hasDeniedName` over a node list. -/
def hasDeniedNameList : ExprList → Bool
  | .nil => false
  | .cons h t => hasDeniedName h || hasDeniedNameList t
end

mutual
/-- A tree containing a blocked node kind fails the checker. -/
theorem anyBad_of_blocked : ∀ e : Expr, hasBlockedNode e = true → anyBadExpr e = true
  | .constant _, h => by simp [hasBlockedNode] at h
  | .name _, h => by simp [hasBlockedNode] at h
  | .unaryOp _ e, h => by
      simp only [hasBlockedNode] at h
      simpa [anyBadExpr] using anyBad_of_blocked e h
  | .binOp l _ r, h => by
      simp only [hasBlockedNode, Bool.or_eq_true] at h
      rcases h with h | h
      · simp [anyBadExpr, anyBad_of_blocked l h]
      · simp [anyBadExpr, anyBad_of_blocked r h]
  | .call f args, h => by
      simp only [hasBlockedNode, Bool.or_eq_true] at h
      rcases h with h | h
      · simp [anyBadExpr, anyBad_of_blocked f h]
      · simp [anyBadExpr, anyBadList_of_blocked args h]
  | .tuple xs, h => by
      simp only [hasBlockedNode] at h
      simpa [anyBadExpr] using anyBadList_of_blocked xs h
  | .list xs, h => by
      simp only [hasBlockedNode] at h
      simpa [anyBadExpr] using anyBadList_of_blocked xs h
  | .attributeE v _, h => by
      simp only [hasBlockedNode] at h
      simpa [anyBadExpr] using anyBad_of_blocked v h
  | .lambda _, _ => by simp [anyBadExpr]
  | .generatorExp _ _ _, _ => by simp [anyBadExpr]
  | .listComp elt target iter, h => by
      simp only [hasBlockedNode, Bool.or_eq_true] at h
      rcases h with h | h
      · simp [anyBadExpr, anyBad_of_blocked elt h]
      · simp [anyBadExpr, anyBad_of_blocked iter h]
  | .setComp elt target iter, h => by
      simp only [hasBlockedNode, Bool.or_eq_true] at h
      rcases h with h | h
      · simp [anyBadExpr, anyBad_of_blocked elt h]
      · simp [anyBadExpr, anyBad_of_blocked iter h]
  | .dictComp k v target iter, h => by
      simp only [hasBlockedNode, Bool.or_eq_true] at h
      rcases h with (h | h) | h
      · simp [anyBadExpr, anyBad_of_blocked k h]
      · simp [anyBadExpr, anyBad_of_blocked v h]
      · simp [anyBadExpr, anyBad_of_blocked iter h]
  | .await _, _ => by simp [anyBadExpr]
  | .yield _, _ => by simp [anyBadExpr]
  | .yieldFrom _, _ => by simp [anyBadExpr]
  | .namedExpr _ _, _ => by simp [anyBadExpr]
/-- List version of `anyBad_of_blocked`. -/
theorem anyBadList_of_blocked :
    ∀ l : ExprList, hasBlockedNodeList l = true → anyBadList l = true
  | .nil, h => by simp [hasBlockedNodeList] at h
  | .cons e t, h => by
      simp only [hasBlockedNodeList, Bool.or_eq_true] at h
      rcases h with h | h
      · simp [anyBadList, anyBad_of_blocked e h]
      · simp [anyBadList, anyBadList_of_blocked t h]
end

mutual
/-- A tree containing a denied name fails the checker (the name may sit below
a blocked node, in which case the checker fails at the blocked ancestor —
either way the outcome is the same `SyntaxError`). -/
theorem anyBad_of_denied : ∀ e : Expr, hasDeniedName e = true → anyBadExpr e = true
  | .constant _, h => by simp [hasDeniedName] at h
  | .name id, h => by
      simp only [hasDeniedName] at h
      simp [anyBadExpr, h]
  | .unaryOp _ e, h => by
      simp only [hasDeniedName] at h
      simpa [anyBadExpr] using anyBad_of_denied e h
  | .binOp l _ r, h => by
      simp only [hasDeniedName, Bool.or_eq_true] at h
      rcases h with h | h
      · simp [anyBadExpr, anyBad_of_denied l h]
      · simp [anyBadExpr, anyBad_of_denied r h]
  | .call f args, h => by
      simp only [hasDeniedName, Bool.or_eq_true] at h
      rcases h with h | h
      · simp [anyBadExpr, anyBad_of_denied f h]
      · simp [anyBadExpr, anyBadList_of_denied args h]
  | .tuple xs, h => by
      simp only [hasDeniedName] at h
      simpa [anyBadExpr] using anyBadList_of_denied xs h
  | .list xs, h => by
      simp only [hasDeniedName] at h
      simpa [anyBadExpr] using anyBadList_of_denied xs h
  | .attributeE v _, h => by
      simp only [hasDeniedName] at h
      simpa [anyBadExpr] using anyBad_of_denied v h
  | .lambda _, _ => by simp [anyBadExpr]
  | .generatorExp _ _ _, _ => by simp [anyBadExpr]
  | .listComp elt target iter, h => by
      simp only [hasDeniedName, Bool.or_eq_true] at h
      rcases h with (h | h) | h
      · simp [anyBadExpr, h]
      · simp [anyBadExpr, anyBad_of_denied elt h]
      · simp [anyBadExpr, anyBad_of_denied iter h]
  | .setComp elt target iter, h => by
      simp only [hasDeniedName, Bool.or_eq_true] at h
      rcases h with (h | h) | h
      · simp [anyBadExpr, h]
      · simp [anyBadExpr, anyBad_of_denied elt h]
      · simp [anyBadExpr, anyBad_of_denied iter h]
  | .dictComp k v target iter, h => by
      simp only [hasDeniedName, Bool.or_eq_true] at h
      rcases h with ((h | h) | h) | h
      · simp [anyBadExpr, h]
      · simp [anyBadExpr, anyBad_of_denied k h]
      · simp [anyBadExpr, anyBad_of_denied v h]
      · simp [anyBadExpr, anyBad_of_denied iter h]
  | .await _, _ => by simp [anyBadExpr]
  | .yield _, _ => by simp [anyBadExpr]
  | .yieldFrom _, _ => by simp [anyBadExpr]
  | .namedExpr _ _, _ => by simp [anyBadExpr]
/-- List version of `anyBad_of_denied`. -/
theorem anyBadList_of_denied :
    ∀ l : ExprList, hasDeniedNameList l = true → anyBadList l = true
  | .nil, h => by simp [hasDeniedNameList] at h
  | .cons e t, h => by
      simp only [hasDeniedNameList, Bool.or_eq_true] at h
      rcases h with h | h
      · simp [anyBadList, anyBad_of_denied e h]
      · simp [anyBadList, anyBadList_of_denied t h]
end

-- ### C1

/-- C1: any input string containing the substring `__` anywhere (string
literals included — the test runs on the raw source text) makes `evaluate`
fail with the `SyntaxError` class, whatever the parser would have produced:
the check precedes `ast.parse`. -/
theorem C1_dunder_preempts_parsing (parse : String → Except PyErr Expr)
    (exp : String) (h : containsDunder exp = true) :
    evaluate parse exp = Except.error PyErr.syntaxError := by
  simp [evaluate, h]

/-- A parse oracle that accepts every input, standing for an arbitrarily
successful `ast.parse`; used to show the dunder check preempts parsing. -/
def constParse : String → Except PyErr Expr :=
  fun _ => .ok (.constant (.int 0))

/-- C1 witness: the dunder-laden input is rejected even under a parser that
would have succeeded. -/
theorem C1_dunder_preempts_parsing_witness :
    evaluate constParse "().__class__" = Except.error PyErr.syntaxError :=
  C1_dunder_preempts_parsing constParse ("().__class__") (by decide)

-- ### C2

/-- The string `[i for i in (1, 2, 3)]` and the result of
`ast.parse` on it: `ListComp(elt=Name('i'), generators=[comprehension(
target=Name('i'), iter=Tuple([Constant(1), Constant(2), Constant(3)]),
ifs=[], is_async=0)])`. -/
def listCompSource : String := "[i for i in (1, 2, 3)]"

/-- The parse tree of `listCompSource` (see its doc comment). -/
def listCompAST : Expr :=
  .listComp (.name ("i")) "i"
    (.tuple (.cons (.constant (.int 1))
      (.cons (.constant (.int 2)) (.cons (.constant (.int 3)) .nil))))

/-- Parse oracle for `listCompSource`. -/
def listCompParse : String → Except PyErr Expr :=
  fun s => if s = listCompSource then .ok listCompAST else .error .syntaxError

/-- C2 counterexample: the claim includes list comprehensions among the
rejected forms, but `INVALID_EXPR` lists only `GeneratorExp` (besides
`Await`, `Lambda`, `NamedExpr`, `Yield`, `YieldFrom`) — `ListComp`,
`SetComp` and `DictComp` are not blocked.  The list comprehension
`[i for i in (1, 2, 3)]` passes the checker and evaluates to `[1, 2, 3]`
instead of failing with `SyntaxError`. -/
theorem C2_counterexample :
    evaluate listCompParse listCompSource =
      Except.ok (PyVal.list (.cons (.int 1)
        (.cons (.int 2) (.cons (.int 3) .nil)))) ∧
    evaluate listCompParse listCompSource ≠ Except.error PyErr.syntaxError := by
  have hd : containsDunder ("[i for i in (1, 2, 3)]") = false := by decide
  have hn : deniedName ("i") = false := by decide
  constructor
  · simp [evaluate, hd, listCompParse, listCompSource, SafeNodeCheck, anyBadExpr,
      anyBadList, hn, listCompAST, evalExpr, evalExprList, evalCompElems,
      resolveName, toElems, List.lookup]
  · simp [evaluate, hd, listCompParse, listCompSource, SafeNodeCheck, anyBadExpr,
      anyBadList, hn, listCompAST, evalExpr, evalExprList, evalCompElems,
      resolveName, toElems, List.lookup]

/-- C2 (amended): every expression containing — at any depth — a node of one
of the kinds in `INVALID_EXPR` (lambda, generator expression, await, yield,
yield-from, walrus assignment) makes `evaluate` fail with the `SyntaxError`
class even when no denied identifier appears; list, set and dict
comprehensions, however, are not among the blocked kinds (see
`C2_counterexample`). -/
theorem C2_blocked_kinds_rejected (parse : String → Except PyErr Expr)
    (exp : String) (t : Expr) (hp : parse exp = Except.ok t)
    (hb : hasBlockedNode t = true) :
    evaluate parse exp = Except.error PyErr.syntaxError := by
  by_cases hd : containsDunder exp = true
  · simp [evaluate, hd]
  · simp [evaluate, hd, hp, SafeNodeCheck, anyBad_of_blocked t hb]

/-- The string `lambda x: x + 1` and its `ast.parse` result
`Lambda(args=..., body=BinOp(Name('x'), Add(), Constant(1)))`. -/
def lambdaSource : String := "lambda x: x + 1"

/-- The parse tree of `lambdaSource` (lambda parameters elided; the checker
rejects the node before they matter). -/
def lambdaAST : Expr := .lambda (.binOp (.name ("x")) .add (.constant (.int 1)))

/-- Parse oracle for `lambdaSource`. -/
def lambdaParse : String → Except PyErr Expr :=
  fun s => if s = lambdaSource then .ok lambdaAST else .error .syntaxError

/-- C2 witness: the lambda expression (which contains no denied identifier)
is rejected with `SyntaxError`. -/
theorem C2_blocked_kinds_rejected_witness :
    evaluate lambdaParse lambdaSource = Except.error PyErr.syntaxError :=
  C2_blocked_kinds_rejected lambdaParse lambdaSource lambdaAST
    (by simp [lambdaParse]) (by simp [hasBlockedNode, lambdaAST])

-- ### C3

/-- The string `print(1)` and its `ast.parse` result
`Call(Name('print'), [Constant(1)])`. -/
def printSource : String := "print(1)"

/-- The parse tree of `printSource`. -/
def printAST : Expr := .call (.name ("print")) (.cons (.constant (.int 1)) .nil)

/-- Parse oracle for `printSource`. -/
def printParse : String → Except PyErr Expr :=
  fun s => if s = printSource then .ok printAST else .error .syntaxError

/-- C3 counterexample: the claim says a deny-listed identifier fails with a
`NameError`-class error distinguishable from the grammar `SyntaxError` class,
but `SafeNodeCheck.visit_Name` calls the same `Invalid` method as the
grammar checks, which raises `SyntaxError('Invalid expression', ...)`:
`print(1)` fails with `SyntaxError`, the very class used for grammar
violations (the repository's own test `test_evaluate_block_names` expects
`SyntaxError` here too). -/
theorem C3_counterexample :
    evaluate printParse printSource = Except.error PyErr.syntaxError ∧
    PyErr.syntaxError ≠ PyErr.nameError := by
  have hd : containsDunder ("print(1)") = false := by decide
  have hn : deniedName ("print") = true := by decide
  refine ⟨?_, by decide⟩
  simp [evaluate, hd, printParse, printSource, SafeNodeCheck, anyBadExpr,
    anyBadList, hn, printAST]

/-- C3 (amended): every expression referencing — at any depth — an identifier
whose lowercased text is in `INVALID_NAMES` makes `evaluate` fail with the
`SyntaxError` class, the same class used for grammar violations (not a
distinguishable `NameError` class). -/
theorem C3_denied_names_syntaxerror (parse : String → Except PyErr Expr)
    (exp : String) (t : Expr) (hp : parse exp = Except.ok t)
    (hn : hasDeniedName t = true) :
    evaluate parse exp = Except.error PyErr.syntaxError := by
  by_cases hd : containsDunder exp = true
  · simp [evaluate, hd]
  · simp [evaluate, hd, hp, SafeNodeCheck, anyBad_of_denied t hn]

/-- The string `type(1)` and its `ast.parse` result
`Call(Name('type'), [Constant(1)])`. -/
def typeSource : String := "type(1)"

/-- The parse tree of `typeSource`. -/
def typeAST : Expr := .call (.name ("type")) (.cons (.constant (.int 1)) .nil)

/-- Parse oracle for `typeSource`. -/
def typeParse : String → Except PyErr Expr :=
  fun s => if s = typeSource then .ok typeAST else .error .syntaxError

/-- C3 witness: the denied name `type` is rejected with `SyntaxError`. -/
theorem C3_denied_names_syntaxerror_witness :
    evaluate typeParse typeSource = Except.error PyErr.syntaxError :=
  C3_denied_names_syntaxerror typeParse typeSource typeAST
    (by simp [typeParse])
    (by
      have hx : deniedName ("type") = true := by decide
      simp [hasDeniedName, typeAST, hx])

-- ### C4

/-- The string `abs(-3)` and its `ast.parse` result
`Call(Name('abs'), [UnaryOp(USub(), Constant(3))])`. -/
def absSource : String := "abs(-3)"

/-- The parse tree of `absSource`. -/
def absAST : Expr :=
  .call (.name ("abs")) (.cons (.unaryOp .usub (.constant (.int 3))) .nil)

/-- Parse oracle for `absSource`. -/
def absParse : String → Except PyErr Expr :=
  fun s => if s = absSource then .ok absAST else .error .syntaxError

/-- The bare name `vars` and its `ast.parse` result `Name('vars')`. -/
def varsSource : String := "vars"

/-- The parse tree of `varsSource`. -/
def varsAST : Expr := .name ("vars")

/-- Parse oracle for `varsSource`. -/
def varsParse : String → Except PyErr Expr :=
  fun s => if s = varsSource then .ok varsAST else .error .syntaxError

/-- C4 (code bug): the claim — and the code's own `nosec` comment, which
promises not to expose "other builtins" — says identifiers beyond the `math`
namespace and a small safe set fail with `NameError`.  In fact
`eval(cobj, {'math': math}, None)` passes a globals dict without
`'__builtins__'`, so CPython injects the entire builtins module: the ordinary
builtin `abs` evaluates (`abs(-3)` returns `3`), and `vars` — which the spec
lists among the denied reflection builtins but `INVALID_NAMES` omits —
resolves to the builtin `vars` function instead of raising `NameError`. -/
theorem C4_builtins_resolve :
    evaluate absParse absSource = Except.ok (PyVal.int 3) ∧
    evaluate varsParse varsSource = Except.ok (PyVal.func PyFunc.vars) := by
  have hd1 : containsDunder ("abs(-3)") = false := by decide
  have hd2 : containsDunder ("vars") = false := by decide
  have h1 : deniedName ("abs") = false := by decide
  have h2 : deniedName ("vars") = false := by decide
  constructor
  · simp [evaluate, hd1, absParse, absSource, SafeNodeCheck, anyBadExpr,
      anyBadList, h1, absAST, evalExpr, evalExprList, resolveName, builtinsNS,
      applyCall, applyUnaryOp, List.lookup]
  · simp [evaluate, hd2, varsParse, varsSource, SafeNodeCheck, anyBadExpr,
      h2, varsAST, evalExpr, resolveName, builtinsNS, List.lookup]

-- ### C5

/-- C5: `DataField.compute` maps a `ZeroDivisionError` raised while
evaluating the substituted expression to `0`, maps a `KeyError` from a
missing field id to `None`, and lets the evaluator's sandbox errors
(`SyntaxError` class and `NameError` class) propagate to the caller instead
of downgrading them to a null value. -/
theorem C5_compute_error_policy (parse : String → Except PyErr Expr)
    (data : List (String × PyVal)) (tmpl : String) :
    (∀ s, substituteTokens data (reSplitTokens tmpl) tmpl = Except.ok s →
      evaluate parse s = Except.error PyErr.zeroDivision →
      compute parse data tmpl = Except.ok (some (PyVal.int 0))) ∧
    (substituteTokens data (reSplitTokens tmpl) tmpl = Except.error PyErr.keyError →
      compute parse data tmpl = Except.ok none) ∧
    (∀ s e, substituteTokens data (reSplitTokens tmpl) tmpl = Except.ok s →
      evaluate parse s = Except.error e →
      (e = PyErr.syntaxError ∨ e = PyErr.nameError) →
      compute parse data tmpl = Except.error e) := by
  refine ⟨?_, ?_, ?_⟩
  · intro s hs he
    simp [compute, hs, he, computeHandle]
  · intro hs
    simp [compute, hs, computeHandle]
  · intro s e hs he hcase
    rcases hcase with h | h <;> subst h <;> simp [compute, hs, he, computeHandle]

/-- The string `1 / 0` and its `ast.parse` result
`BinOp(Constant(1), Div(), Constant(0))`. -/
def divSource : String := "1 / 0"

/-- The parse tree of `divSource`. -/
def divAST : Expr := .binOp (.constant (.int 1)) .div (.constant (.int 0))

/-- Parse oracle for `divSource`. -/
def divParse : String → Except PyErr Expr :=
  fun s => if s = divSource then .ok divAST else .error .syntaxError

/-- A row binding field id `a` to 1 and field id `b` to 0. -/
def rowAB : List (String × PyVal) := [("a", .int 1), ("b", .int 0)]

/-- The computed-field template `$a / $b`. -/
def tmplAB : String := "$a / $b"

/-- C5 witness: on the row `{a: 1, b: 0}` the template `$a / $b` substitutes
to `1 / 0`, whose evaluation raises `ZeroDivisionError`, and `compute`
returns `0`. -/
theorem C5_compute_error_policy_witness :
    compute divParse rowAB tmplAB = Except.ok (some (PyVal.int 0)) :=
  (C5_compute_error_policy divParse rowAB tmplAB).1 divSource
    (by decide)
    (by
      have hd : containsDunder ("1 / 0") = false := by decide
      simp [evaluate, hd, divParse, divSource, SafeNodeCheck, anyBadExpr, divAST,
        evalExpr, applyBinOp, asNum])

/-!
## `multikeysort` from `vmtreport/util.py`

```
def multikeysort(items, columns):
    comparers = [
        ((ig(col[1:].strip()), -1) if col.startswith('-') else (ig(col.strip()), 1))
        for col in columns
    ]
    def cmp(x, y):
        return (x > y) - (x < y)
    def comparer(left, right):
        comparer_iter = (
            cmp(fn(left), fn(right)) * mult
            for fn, mult in comparers
        )
        return next((result for result in comparer_iter if result), 0)
    return sorted(items, key=cmp_to_key(comparer))
```

Rows are modelled as total functions `String → α` over a linearly ordered
value type (`ig(k)` is `itemgetter(k)`, i.e. `fun r => r k`).  Python's
`sorted` with `cmp_to_key(comparer)` is a stable sort with respect to the
total preorder `comparer x y ≤ 0`; `List.mergeSort` is Lean's stable sort,
and a stable sort's output is uniquely determined by the preorder, so the
embedding uses `mergeSort` with that comparison. -/

/-- Python `str.strip()` (no argument form): remove leading and trailing
whitespace. -/
def pyStrip (s : String) : String :=
  String.mk (((s.data.dropWhile Char.isWhitespace).reverse.dropWhile
    Char.isWhitespace).reverse)

/-- Python `col.startswith('-')`. -/
def startsWithDash (s : String) : Bool :=
  match s.data with
  | '-' :: _ => true
  | _ => false

/-- Python `col[1:]`. -/
def dropFirst (s : String) : String := String.mk (s.data.drop 1)

/-- The local `cmp` of `multikeysort`: `(x > y) - (x < y)` with Python bools
read as integers. -/
def cmpPy {α : Type} [LinearOrder α] (x y : α) : ℤ :=
  (if x > y then 1 else 0) - (if x < y then 1 else 0)

/-- The `comparers` list of `multikeysort`: one `(itemgetter, mult)` pair per
sort key, `mult = -1` for a `-`-prefixed (descending) key. -/
def mkComparers {α : Type} (columns : List String) :
    List (((String → α) → α) × ℤ) :=
  columns.map (fun col =>
    if startsWithDash col then ((fun r => r (pyStrip (dropFirst col))), -1)
    else ((fun r => r (pyStrip col)), 1))

/-- The local `comparer` of `multikeysort`: the first nonzero
`cmp(fn(left), fn(right)) * mult`, else 0. -/
def comparer {α : Type} [LinearOrder α] :
    List (((String → α) → α) × ℤ) → (String → α) → (String → α) → ℤ
  | [], _, _ => 0
  | (fn, mult) :: rest, l, r =>
    let c := cmpPy (fn l) (fn r) * mult
    if c ≠ 0 then c else comparer rest l r

/-- Embedding of `vmtreport.util.multikeysort(items, columns)` (see the
section comment for why `sorted`/`cmp_to_key` is `mergeSort` over
`comparer x y ≤ 0`). -/
def multikeysort {α : Type} [LinearOrder α] (items : List (String → α))
    (columns : List String) : List (String → α) :=
  items.mergeSort (fun x y => decide (comparer (mkComparers columns) x y ≤ 0))

/-- The row field a sort key addresses: its text with the optional leading
`-` removed, then stripped. -/
def sortKeyName (col : String) : String :=
  if startsWithDash col then pyStrip (dropFirst col) else pyStrip col

/-- The ordering the claim describes, written from the spec's words: keys in
listed priority order; on the first key where the rows differ, a
`-`-prefixed key demands descending order and an unprefixed key ascending
order. -/
def specLe {α : Type} [LinearOrder α] :
    List String → (String → α) → (String → α) → Prop
  | [], _, _ => True
  | col :: rest, x, y =>
    if x (sortKeyName col) = y (sortKeyName col) then specLe rest x y
    else if startsWithDash col then y (sortKeyName col) < x (sortKeyName col)
    else x (sortKeyName col) < y (sortKeyName col)

/-- Two rows equal under every sort key. -/
def tiedRows {α : Type} [LinearOrder α] (columns : List String)
    (x y : String → α) : Prop :=
  ∀ col ∈ columns, x (sortKeyName col) = y (sortKeyName col)

theorem cmpPy_eq_zero_iff {α : Type} [LinearOrder α] {x y : α} :
    cmpPy x y = 0 ↔ x = y := by
  unfold cmpPy
  split_ifs with h1 h2 h2
  · exact absurd h2 (asymm h1)
  · exact ⟨fun h => absurd h (by decide), fun h => absurd h (ne_of_gt h1)⟩
  · exact ⟨fun h => absurd h (by decide), fun h => absurd h (ne_of_lt h2)⟩
  · have hxy := le_antisymm (not_lt.mp h1) (not_lt.mp h2)
    simp [hxy]

theorem cmpPy_swap {α : Type} [LinearOrder α] (x y : α) :
    cmpPy y x = -cmpPy x y := by
  unfold cmpPy
  rcases lt_trichotomy x y with h | h | h
  · simp [h, asymm h, gt_iff_lt]
  · simp [h, lt_irrefl]
  · simp [h, asymm h, gt_iff_lt]

theorem cmpPy_lt_zero_iff {α : Type} [LinearOrder α] {x y : α} :
    cmpPy x y < 0 ↔ x < y := by
  unfold cmpPy
  split_ifs with h1 h2 h2
  · exact absurd h2 (asymm h1)
  · exact ⟨fun h => absurd h (by decide), fun h => absurd h (asymm h1)⟩
  · exact ⟨fun _ => h2, fun _ => by decide⟩
  · exact ⟨fun h => absurd h (by decide), fun h => absurd h h2⟩

/-- Ascending key: the `comparer` head step with `mult = 1`. -/
theorem comparer_cons_asc {α : Type} [LinearOrder α] {col : String}
    (rest : List String) (x y : String → α) (hd : startsWithDash col = false) :
    comparer (mkComparers (col :: rest)) x y =
      (if cmpPy (x (sortKeyName col)) (y (sortKeyName col)) = 0 then
        comparer (mkComparers rest) x y
       else cmpPy (x (sortKeyName col)) (y (sortKeyName col))) := by
  have hmk : mkComparers (α := α) (col :: rest) =
      ((fun r => r (pyStrip col)), 1) :: mkComparers rest := by
    simp [mkComparers, hd]
  rw [hmk]
  simp [comparer, sortKeyName, hd, ite_not]

/-- Descending key: the `comparer` head step with `mult = -1`. -/
theorem comparer_cons_desc {α : Type} [LinearOrder α] {col : String}
    (rest : List String) (x y : String → α) (hd : startsWithDash col = true) :
    comparer (mkComparers (col :: rest)) x y =
      (if cmpPy (x (sortKeyName col)) (y (sortKeyName col)) = 0 then
        comparer (mkComparers rest) x y
       else -cmpPy (x (sortKeyName col)) (y (sortKeyName col))) := by
  have hmk : mkComparers (α := α) (col :: rest) =
      ((fun r => r (pyStrip (dropFirst col))), -1) :: mkComparers rest := by
    simp [mkComparers, hd]
  rw [hmk]
  simp [comparer, sortKeyName, hd, ite_not]

/-- `comparer` is antisymmetric in sign. -/
theorem comparer_swap {α : Type} [LinearOrder α] :
    ∀ (columns : List String) (x y : String → α),
      comparer (mkComparers columns) y x = -comparer (mkComparers columns) x y := by
  intro columns
  induction columns with
  | nil => intro x y; simp [mkComparers, comparer]
  | cons col rest ih =>
    intro x y
    by_cases hd : startsWithDash col = true
    · rw [comparer_cons_desc rest x y hd, comparer_cons_desc rest y x hd,
        cmpPy_swap (x (sortKeyName col)) (y (sortKeyName col))]
      by_cases hc : cmpPy (x (sortKeyName col)) (y (sortKeyName col)) = 0
      · rw [if_pos (neg_eq_zero.mpr hc), if_pos hc]
        exact ih x y
      · rw [if_neg (fun h => hc (neg_eq_zero.mp h)), if_neg hc]
    · rw [comparer_cons_asc rest x y (by simpa using hd),
        comparer_cons_asc rest y x (by simpa using hd),
        cmpPy_swap (x (sortKeyName col)) (y (sortKeyName col))]
      by_cases hc : cmpPy (x (sortKeyName col)) (y (sortKeyName col)) = 0
      · rw [if_pos (neg_eq_zero.mpr hc), if_pos hc]
        exact ih x y
      · rw [if_neg (fun h => hc (neg_eq_zero.mp h)), if_neg hc]

/-- The code's comparison agrees with the claim's ordering. -/
theorem comparer_le_iff_specLe {α : Type} [LinearOrder α] :
    ∀ (columns : List String) (x y : String → α),
      comparer (mkComparers columns) x y ≤ 0 ↔ specLe columns x y := by
  intro columns
  induction columns with
  | nil => intro x y; simp [mkComparers, comparer, specLe]
  | cons col rest ih =>
    intro x y
    by_cases he : x (sortKeyName col) = y (sortKeyName col)
    · have hc : cmpPy (x (sortKeyName col)) (y (sortKeyName col)) = 0 :=
        cmpPy_eq_zero_iff.mpr he
      by_cases hd : startsWithDash col = true
      · rw [comparer_cons_desc rest x y hd, if_pos hc]
        simp [specLe, he, ih]
      · rw [comparer_cons_asc rest x y (by simpa using hd), if_pos hc]
        simp [specLe, he, ih]
    · have hc : ¬ cmpPy (x (sortKeyName col)) (y (sortKeyName col)) = 0 :=
        fun hz => he (cmpPy_eq_zero_iff.mp hz)
      by_cases hd : startsWithDash col = true
      · rw [comparer_cons_desc rest x y hd, if_neg hc]
        have hgoal : -cmpPy (x (sortKeyName col)) (y (sortKeyName col)) ≤ 0 ↔
            y (sortKeyName col) < x (sortKeyName col) := by
          constructor
          · intro h0
            rcases lt_or_gt_of_ne (fun hxx => he hxx) with h | h
            · have h2 := cmpPy_lt_zero_iff.mpr h
              omega
            · exact h
          · intro h
            have h2 := cmpPy_lt_zero_iff.mpr h
            rw [cmpPy_swap] at h2
            omega
        rw [hgoal]
        simp [specLe, he, hd]
      · rw [comparer_cons_asc rest x y (by simpa using hd), if_neg hc]
        have hgoal : cmpPy (x (sortKeyName col)) (y (sortKeyName col)) ≤ 0 ↔
            x (sortKeyName col) < y (sortKeyName col) := by
          constructor
          · intro h0
            rcases lt_or_gt_of_ne (fun hxx => he hxx) with h | h
            · exact h
            · have h2 := cmpPy_lt_zero_iff.mpr h
              rw [cmpPy_swap] at h2
              omega
          · intro h
            exact le_of_lt (cmpPy_lt_zero_iff.mpr h)
        rw [hgoal]
        simp [specLe, he, hd]

/-- The claim's ordering is transitive. -/
theorem specLe_trans {α : Type} [LinearOrder α] :
    ∀ (columns : List String) (x y z : String → α),
      specLe columns x y → specLe columns y z → specLe columns x z := by
  intro columns
  induction columns with
  | nil => intro x y z _ _; simp [specLe]
  | cons col rest ih =>
    intro x y z hxy hyz
    simp only [specLe] at hxy hyz ⊢
    by_cases hab : x (sortKeyName col) = y (sortKeyName col) <;>
      by_cases hbc : y (sortKeyName col) = z (sortKeyName col)
    · rw [if_pos hab] at hxy
      rw [if_pos hbc] at hyz
      rw [if_pos (hab.trans hbc)]
      exact ih x y z hxy hyz
    · rw [if_pos hab] at hxy
      rw [if_neg hbc] at hyz
      have hac : ¬ x (sortKeyName col) = z (sortKeyName col) := by
        intro h; exact hbc (hab.symm.trans h)
      rw [if_neg hac]
      by_cases hd : startsWithDash col = true
      · rw [if_pos hd] at hyz ⊢; rw [hab]; exact hyz
      · rw [if_neg hd] at hyz ⊢; rw [hab]; exact hyz
    · rw [if_neg hab] at hxy
      rw [if_pos hbc] at hyz
      have hac : ¬ x (sortKeyName col) = z (sortKeyName col) := by
        intro h; exact hab (h.trans hbc.symm)
      rw [if_neg hac]
      by_cases hd : startsWithDash col = true
      · rw [if_pos hd] at hxy ⊢; rw [← hbc]; exact hxy
      · rw [if_neg hd] at hxy ⊢; rw [← hbc]; exact hxy
    · rw [if_neg hab] at hxy
      rw [if_neg hbc] at hyz
      by_cases hd : startsWithDash col = true
      · rw [if_pos hd] at hxy hyz
        have hlt : z (sortKeyName col) < x (sortKeyName col) := lt_trans hyz hxy
        rw [if_neg (fun h => absurd h.symm (ne_of_lt hlt)), if_pos hd]
        exact hlt
      · rw [if_neg hd] at hxy hyz
        have hlt : x (sortKeyName col) < z (sortKeyName col) := lt_trans hxy hyz
        rw [if_neg (ne_of_lt hlt), if_neg hd]
        exact hlt

/-- Rows tied under every key compare as 0. -/
theorem comparer_eq_zero_of_tied {α : Type} [LinearOrder α] :
    ∀ (columns : List String) (x y : String → α),
      tiedRows columns x y → comparer (mkComparers columns) x y = 0 := by
  intro columns
  induction columns with
  | nil => intro x y _; simp [mkComparers, comparer]
  | cons col rest ih =>
    intro x y htied
    have hhead : x (sortKeyName col) = y (sortKeyName col) :=
      htied col (List.mem_cons_self col rest)
    have htail : tiedRows rest x y :=
      fun c hc => htied c (List.mem_cons_of_mem col hc)
    have hc : cmpPy (x (sortKeyName col)) (y (sortKeyName col)) = 0 :=
      cmpPy_eq_zero_iff.mpr hhead
    by_cases hd : startsWithDash col = true
    · rw [comparer_cons_desc rest x y hd, if_pos hc]
      exact ih x y htail
    · rw [comparer_cons_asc rest x y (by simpa using hd), if_pos hc]
      exact ih x y htail

-- ### C9

/-- C9: `multikeysort` is a stable multi-key sort.  The output is a
permutation of the input; it is sorted in the claim's sense (`specLe`: keys
in listed priority order, `-`-prefixed keys descending, unprefixed keys
ascending); and it is stable: any sublist of rows that are pairwise tied
under every key (in particular, any two tied rows) appears in the output in
its input relative order. -/
theorem C9_multikeysort_stable_sort {α : Type} [LinearOrder α]
    (items : List (String → α)) (columns : List String) :
    (multikeysort items columns).Perm items ∧
    List.Pairwise (specLe columns) (multikeysort items columns) ∧
    (∀ c : List (String → α), c.Sublist items → c.Pairwise (tiedRows columns) →
      c.Sublist (multikeysort items columns)) := by
  simp only [multikeysort]
  have htrans : ∀ a b c : String → α,
      (fun x y => decide (comparer (mkComparers columns) x y ≤ 0)) a b →
      (fun x y => decide (comparer (mkComparers columns) x y ≤ 0)) b c →
      (fun x y => decide (comparer (mkComparers columns) x y ≤ 0)) a c := by
    intro a b c hab hbc
    simp only [decide_eq_true_eq] at hab hbc ⊢
    rw [comparer_le_iff_specLe] at hab hbc ⊢
    exact specLe_trans columns a b c hab hbc
  have htotal : ∀ a b : String → α,
      ((fun x y => decide (comparer (mkComparers columns) x y ≤ 0)) a b ||
       (fun x y => decide (comparer (mkComparers columns) x y ≤ 0)) b a) := by
    intro a b
    simp only [Bool.or_eq_true, decide_eq_true_eq]
    by_cases h : comparer (mkComparers columns) a b ≤ 0
    · exact Or.inl h
    · refine Or.inr ?_
      rw [comparer_swap]
      omega
  refine ⟨List.mergeSort_perm items _, ?_, ?_⟩
  · have hs := List.sorted_mergeSort htrans htotal items
    exact hs.imp (fun h => (comparer_le_iff_specLe columns _ _).mp
      (by simpa using h))
  · intro c hsub hpair
    refine List.sublist_mergeSort htrans htotal ?_ hsub
    exact hpair.imp (fun h => by
      simp only [decide_eq_true_eq]
      exact le_of_eq (comparer_eq_zero_of_tied columns _ _ h))

/-- A row with `b = 5`, `a = 1`, every other field 0. -/
def rowX : String → ℤ := fun f => if f = "b" then 5 else if f = "a" then 1 else 0

/-- A row tied with `rowX` on `b` and `a` but different elsewhere. -/
def rowY : String → ℤ := fun f => if f = "b" then 5 else if f = "a" then 1 else 7

/-- A row with `b = 3`. -/
def rowZ : String → ℤ := fun f => if f = "b" then 3 else 0

/-- C9 witness: under `sortby = ['-b', 'a']`, the two rows tied on `b` and
`a` keep their input relative order in the sorted output (stability applied
at a concrete input). -/
theorem C9_multikeysort_stable_sort_witness :
    List.Sublist [rowX, rowY] (multikeysort [rowX, rowY, rowZ] ["-b", "a"]) :=
  (C9_multikeysort_stable_sort [rowX, rowY, rowZ] ["-b", "a"]).2.2
    [rowX, rowY]
    (List.sublist_append_left [rowX, rowY] [rowZ])
    (by
      refine List.Pairwise.cons (fun y hy => ?_) (List.pairwise_singleton _ _)
      have hyY : y = rowY := by simpa using hy
      subst hyY
      intro col hcol
      fin_cases hcol <;> decide)
